import Mathlib

/-!
# A shallow embedding of the FastDB vector-database server

Definitions translated from the Rust sources under `crates/server/src`:
`index.rs` (the `InMemoryIndex`), `storage.rs` (WAL entries, replay,
snapshot loading) and `routes.rs` (the HTTP handlers' state transitions),
together with the startup logic of `main.rs`.

Modelling conventions:
* Rust `HashMap<K, V>` is modelled as an association list `List (K × V)`
  whose operations (`mget`, `minsert`, `mremove`) have the same lookup
  semantics (insert replaces the binding of an existing key; remove drops
  it). Iteration order of a `HashMap` is unspecified, so nothing below
  depends on list order beyond key membership.
* `f32` components are modelled as rationals `ℚ`. The only arithmetic the
  verified claims depend on is the squared-norm zero test, on which `f32`
  and `ℚ` agree exactly for the inputs involved (sums of squares of
  literal components such as 0 and 1).
* The HNSW graph of the external `hnsw_rs` crate is opaque: the index
  records the sequence of `hnsw.insert` calls, and `query` receives the
  result of `hnsw.search` through an explicit `search` function argument,
  so theorems quantify over every possible behaviour of the graph search.
* `serde_json::Value` metadata is opaque to the index (stored verbatim,
  never interpreted); it is modelled as `Option String`.
-/

namespace FastDB

/-- Lookup in the association-list model of `HashMap`: the binding of `k`,
if any. -/
def mget {α β : Type} [DecidableEq α] : List (α × β) → α → Option β
  | [], _ => none
  | (k, v) :: rest, k' => if k' = k then some v else mget rest k'

/-- `HashMap::remove`: drop the binding of `k`. -/
def mremove {α β : Type} [DecidableEq α] (k : α) :
    List (α × β) → List (α × β)
  | [] => []
  | p :: rest => if p.1 = k then mremove k rest else p :: mremove k rest

/-- `HashMap::insert`: bind `k` to `v`, replacing any existing binding. -/
def minsert {α β : Type} [DecidableEq α] (k : α) (v : β) (l : List (α × β)) :
    List (α × β) :=
  (k, v) :: mremove k l

/-- The ground-truth record stored per external ID (`IndexedVector` in
`index.rs`). -/
structure IndexedVector where
  values : List ℚ
  metadata : Option String
deriving DecidableEq, Repr

/-- One query hit (`ScoredPoint` in `index.rs`). -/
structure ScoredPoint where
  id : String
  score : ℚ
  metadata : Option String
deriving DecidableEq, Repr

/-- The per-collection vector index (`InMemoryIndex` in `index.rs`).
The `hnsw` field records the `(internal id, vector)` pairs handed to
`hnsw.insert`, in call order; the graph built from them lives in the
external `hnsw_rs` crate and is not interpreted here. -/
structure InMemoryIndex where
  dim : Nat
  vectors : List (String × IndexedVector)
  hnsw : List (Nat × List ℚ)
  id_to_data_id : List (String × Nat)
  data_id_to_id : List (Nat × String)
  next_data_id : Nat
deriving DecidableEq, Repr

/-- `InMemoryIndex::new` (index.rs:33-56). The Rust constructor is total:
it builds the (empty) HNSW graph with fixed parameters and performs no
check on `dim`. -/
def InMemoryIndex.new (dim : Nat) : InMemoryIndex :=
  { dim := dim
    vectors := []
    hnsw := []
    id_to_data_id := []
    data_id_to_id := []
    next_data_id := 0 }

/-- `index.rs:58-60`. -/
def InMemoryIndex.dimension (s : InMemoryIndex) : Nat := s.dim

/-- `index.rs:169-171`. -/
def InMemoryIndex.vector_count (s : InMemoryIndex) : Nat := s.vectors.length

/-- Squared L2 norm, `values.iter().map(|x| x * x).sum()`. -/
def normSq (values : List ℚ) : ℚ := (values.map (fun x => x * x)).sum

/-- `InMemoryIndex::upsert` (index.rs:62-103): dimension check, zero-norm
check, internal-id lookup or allocation, HNSW insert, ground-truth store.
An `Except.error` result models the Rust early `return Err(..)`, before
any mutation. -/
def InMemoryIndex.upsert (s : InMemoryIndex) (id : String) (values : List ℚ)
    (metadata : Option String) : Except String InMemoryIndex :=
  if values.length ≠ s.dim then
    .error ("expected vector of dimension " ++ toString s.dim ++ ", got "
      ++ toString values.length)
  else if normSq values = 0 then
    .error "vector norm must be > 0"
  else
    match mget s.id_to_data_id id with
    | some d =>
        .ok { s with
          hnsw := s.hnsw ++ [(d, values)]
          vectors := minsert id ⟨values, metadata⟩ s.vectors }
    | none =>
        let d := s.next_data_id
        .ok { s with
          next_data_id := d + 1
          id_to_data_id := minsert id d s.id_to_data_id
          data_id_to_id := minsert d id s.data_id_to_id
          hnsw := s.hnsw ++ [(d, values)]
          vectors := minsert id ⟨values, metadata⟩ s.vectors }

/-- `InMemoryIndex::delete` (index.rs:105-114): remove the ground-truth
record and both ID mappings; the HNSW node is not removed (soft delete).
Returns whether the id existed, paired with the new state. -/
def InMemoryIndex.delete (s : InMemoryIndex) (id : String) :
    Bool × InMemoryIndex :=
  if (mget s.vectors id).isSome then
    let s₁ := { s with vectors := mremove id s.vectors }
    match mget s₁.id_to_data_id id with
    | some d =>
        (true, { s₁ with
          id_to_data_id := mremove id s₁.id_to_data_id
          data_id_to_id := mremove d s₁.data_id_to_id })
    | none => (true, s₁)
  else
    (false, s)

/-- The filtering loop of `InMemoryIndex::query` (index.rs:138-164): walk
the neighbours returned by the graph search, map internal ids back to
external ids, skip tombstoned/unmapped hits, convert distance to a score,
and stop once `top_k` results are collected. -/
def queryLoop (s : InMemoryIndex) (top_k : Nat) :
    List (Nat × ℚ) → List ScoredPoint → List ScoredPoint
  | [], acc => acc
  | (d_id, dist) :: rest, acc =>
    match mget s.data_id_to_id d_id with
    | none => queryLoop s top_k rest acc
    | some ext =>
      match mget s.vectors ext with
      | none => queryLoop s top_k rest acc
      | some stored =>
        let acc' := acc ++ [⟨ext, 1 - dist, stored.metadata⟩]
        if acc'.length = top_k then acc' else queryLoop s top_k rest acc'

/-- `InMemoryIndex::query` (index.rs:116-167). `search` stands for
`self.hnsw.search` of the external `hnsw_rs` crate, returning
`(internal id, distance)` neighbours; it is called with the source's
arguments `top_k * 4` and `ef = max(top_k, 64)`. -/
def InMemoryIndex.query (s : InMemoryIndex)
    (search : List ℚ → Nat → Nat → List (Nat × ℚ))
    (q : List ℚ) (top_k : Nat) : Except String (List ScoredPoint) :=
  if q.length ≠ s.dim then
    .error ("expected query vector of dimension " ++ toString s.dim
      ++ ", got " ++ toString q.length)
  else if top_k = 0 ∨ s.vectors = [] then
    .ok []
  else if normSq q = 0 then
    .error "query vector norm must be > 0"
  else
    let ef := max top_k 64
    let neighbours := search q (top_k * 4) ef
    .ok (queryLoop s top_k neighbours [])

/-- A WAL record (`WalEntry` in storage.rs:16-40). -/
inductive WalEntry where
  | createCollection (tenant name : String) (dimension : Nat)
  | deleteCollection (tenant name : String)
  | upsertVector (tenant collection id : String) (values : List ℚ)
      (metadata : Option String)
  | deleteVector (tenant collection id : String)
deriving DecidableEq, Repr

/-- The registry's full state: tenant → collection name → index
(`HashMap<String, HashMap<String, InMemoryIndex>>`). -/
abbrev Collections := List (String × List (String × InMemoryIndex))

/-- Applying one parsed WAL entry during replay (the `match entry` body of
`replay_wal`, storage.rs:112-159). -/
def applyEntry (c : Collections) : WalEntry → Collections
  | .createCollection tenant name dimension =>
    match mget c tenant with
    | none => minsert tenant [(name, InMemoryIndex.new dimension)] c
    | some tm =>
      match mget tm name with
      | some _ => c
      | none => minsert tenant (minsert name (InMemoryIndex.new dimension) tm) c
  | .deleteCollection tenant name =>
    match mget c tenant with
    | none => c
    | some tm =>
      let tm' := mremove name tm
      if tm' = [] then mremove tenant c else minsert tenant tm' c
  | .upsertVector tenant collection id values metadata =>
    let dim := values.length
    let tm := (mget c tenant).getD []
    let index := (mget tm collection).getD (InMemoryIndex.new dim)
    let index' :=
      match index.upsert id values metadata with
      | .ok i => i
      | .error _ => index
    minsert tenant (minsert collection index' tm) c
  | .deleteVector tenant collection id =>
    match mget c tenant with
    | none => c
    | some tm =>
      let tm' :=
        match mget tm collection with
        | none => tm
        | some index => minsert collection (index.delete id).2 tm
      if tm' = [] then mremove tenant c else minsert tenant tm' c

/-- One line read from the WAL file, classified the way the replay loop
(storage.rs:85-110) classifies it: the read itself failed, the line is
blank after trimming, `serde_json::from_str` failed, or it parsed to an
entry. -/
inductive WalLine where
  | readError
  | blank
  | unparsable
  | entry (e : WalEntry)
deriving DecidableEq, Repr

/-- The replay loop of `replay_wal` (storage.rs:85-160): every line that
is unreadable, blank or unparseable hits a `continue`; parsed entries are
applied in line order. The loop itself never fails. -/
def replayLines (ls : List WalLine) (c : Collections) : Collections :=
  ls.foldl
    (fun acc l =>
      match l with
      | .readError => acc
      | .blank => acc
      | .unparsable => acc
      | .entry e => applyEntry acc e)
    c

/-- The entries of the parseable lines, in WAL order. -/
def parsedEntries (ls : List WalLine) : List WalEntry :=
  ls.filterMap (fun l => match l with | .entry e => some e | _ => none)

/-- Outcome of `load_collections_from_snapshot` (storage.rs:197-228) as
observed by `main`: no snapshot file, a successfully parsed state, or a
read/parse error (`Err`). -/
inductive SnapshotLoad where
  | noSnapshot
  | snapshot (c : Collections)
  | loadError
deriving Repr

/-- The startup sequence of `main` (main.rs:25-50): load the snapshot,
falling back to the empty map both when no snapshot exists and when
loading fails (the `Err(e)` arm logs the error and continues,
main.rs:37-40), then always replay the WAL on top, then hand the state to
the server. `some state` means the process goes on to serve traffic with
`state`; `none` would model stopping before serving, and no branch of
`main` produces it. -/
def mainStartup (snap : SnapshotLoad) (wal : List WalLine) :
    Option Collections :=
  let base : Collections :=
    match snap with
    | .noSnapshot => []
    | .snapshot c => c
    | .loadError => []
  some (replayLines wal base)

/-! ## Route handlers (routes.rs)

Each handler is modelled as a pure state transition producing the new
registry state, the HTTP result (`Except (status, message) payload`), the
list of WAL entries handed to `append_entry` in call order, and the error
lines logged for failed appends. `appendOk k` tells whether the `k`-th
`append_entry` call of the request succeeds; the source only logs a
failure (`tracing::error!`) and never lets it influence the response or
the state. -/

/-- The `(StatusCode, String)` error of a handler. -/
abbrev RouteErr := Nat × String

/-- Result bundle of one handler invocation. -/
structure HandlerOut (α : Type) where
  state : Collections
  resp : Except RouteErr α
  wal : List WalEntry
  logs : List String
deriving Repr

/-- The `collection not found` message used by the handlers. -/
def notFoundMsg (name : String) : String :=
  "collection '" ++ name ++ "' not found"

/-- `create_collection` (routes.rs:27-68): reject dimension 0, get or
create the tenant map, reject a duplicate name, insert a fresh index,
then append a WAL record (failure logged only). -/
def create_collection (st : Collections) (tenant name : String)
    (dimension : Nat) (appendOk : Nat → Bool) : HandlerOut (String × Nat) :=
  if dimension = 0 then
    ⟨st, .error (400, "dimension must be greater than 0"), [], []⟩
  else
    let tm := (mget st tenant).getD []
    if (mget tm name).isSome then
      ⟨st, .error (409, "collection '" ++ name ++ "' already exists"), [], []⟩
    else
      { state := minsert tenant (minsert name (InMemoryIndex.new dimension) tm) st
        resp := .ok (name, dimension)
        wal := [.createCollection tenant name dimension]
        logs := if appendOk 0 then []
          else ["failed to append WAL for create_collection"] }

/-- `list_collections` (routes.rs:72-93): summaries
`(name, dimension, vector_count)` of the tenant's collections; an absent
tenant yields the empty list. -/
def list_collections (st : Collections) (tenant : String) :
    List (String × Nat × Nat) :=
  match mget st tenant with
  | none => []
  | some tm => tm.map (fun p => (p.1, p.2.dim, p.2.vectors.length))

/-- `get_collection` (routes.rs:97-123). -/
def get_collection (st : Collections) (tenant name : String) :
    Except RouteErr (String × Nat × Nat) :=
  match mget st tenant with
  | none => .error (404, notFoundMsg name)
  | some tm =>
    match mget tm name with
    | none => .error (404, notFoundMsg name)
    | some index => .ok (name, index.dim, index.vectors.length)

/-- `collection_stats` (routes.rs:125-155). -/
def collection_stats (st : Collections) (tenant name : String) :
    Except RouteErr (String × Nat × Nat × String) :=
  match mget st tenant with
  | none => .error (404, notFoundMsg name)
  | some tm =>
    match mget tm name with
    | none => .error (404, notFoundMsg name)
    | some index => .ok (name, index.dim, index.vectors.length, "hnsw_cosine")

/-- `delete_collection` (routes.rs:159-192): remove the collection (and a
now-empty tenant map), 404 when it did not exist, otherwise append a WAL
record (failure logged only). -/
def delete_collection (st : Collections) (tenant name : String)
    (appendOk : Nat → Bool) : HandlerOut Bool :=
  match mget st tenant with
  | none => ⟨st, .error (404, notFoundMsg name), [], []⟩
  | some tm =>
    let removed := (mget tm name).isSome
    let tm' := mremove name tm
    let st' := if tm' = [] then mremove tenant st else minsert tenant tm' st
    if removed then
      { state := st'
        resp := .ok true
        wal := [.deleteCollection tenant name]
        logs := if appendOk 0 then []
          else ["failed to append WAL for delete_collection"] }
    else
      ⟨st', .error (404, notFoundMsg name), [], []⟩

/-- One item of an upsert request body. -/
structure UpsertItem where
  id : String
  values : List ℚ
  metadata : Option String
deriving DecidableEq, Repr

/-- The per-item loop of `upsert_vectors` (routes.rs:221-241): upsert into
the index, abort the request with 400 on the first failure (keeping the
mutations already applied), count the success, then append a WAL record
for it (failure logged only). `k` numbers the append calls. -/
def upsertLoop (tenant name : String) (appendOk : Nat → Bool)
    (index : InMemoryIndex) (items : List UpsertItem) (count k : Nat) :
    InMemoryIndex × Except RouteErr Nat × List WalEntry × List String :=
  match items with
  | [] => (index, .ok count, [], [])
  | v :: rest =>
    match index.upsert v.id v.values v.metadata with
    | .error e => (index, .error (400, e), [], [])
    | .ok index' =>
      let w := WalEntry.upsertVector tenant name v.id v.values v.metadata
      let log := if appendOk k then []
        else ["failed to append WAL for upsert_vector"]
      let r := upsertLoop tenant name appendOk index' rest (count + 1) (k + 1)
      (r.1, r.2.1, w :: r.2.2.1, log ++ r.2.2.2)

/-- `upsert_vectors` (routes.rs:198-244). -/
def upsert_vectors (st : Collections) (tenant name : String)
    (items : List UpsertItem) (appendOk : Nat → Bool) : HandlerOut Nat :=
  match mget st tenant with
  | none => ⟨st, .error (404, notFoundMsg name), [], []⟩
  | some tm =>
    match mget tm name with
    | none => ⟨st, .error (404, notFoundMsg name), [], []⟩
    | some index =>
      let r := upsertLoop tenant name appendOk index items 0 0
      { state := minsert tenant (minsert name r.1 tm) st
        resp := r.2.1
        wal := r.2.2.1
        logs := r.2.2.2 }

/-- `query_vectors` (routes.rs:249-286): read-only dispatch to
`InMemoryIndex.query`; no state change, no WAL append. -/
def query_vectors (st : Collections) (tenant name : String)
    (search : List ℚ → Nat → Nat → List (Nat × ℚ))
    (q : List ℚ) (top_k : Nat) : Except RouteErr (List ScoredPoint) :=
  match mget st tenant with
  | none => .error (404, notFoundMsg name)
  | some tm =>
    match mget tm name with
    | none => .error (404, notFoundMsg name)
    | some index =>
      match index.query search q top_k with
      | .error e => .error (400, e)
      | .ok scored => .ok scored

/-- `delete_vector` (routes.rs:291-326): delete from the index; append a
WAL record only when something was deleted (failure logged only). -/
def delete_vector (st : Collections) (tenant name id : String)
    (appendOk : Nat → Bool) : HandlerOut Bool :=
  match mget st tenant with
  | none => ⟨st, .error (404, notFoundMsg name), [], []⟩
  | some tm =>
    match mget tm name with
    | none => ⟨st, .error (404, notFoundMsg name), [], []⟩
    | some index =>
      let r := index.delete id
      { state := minsert tenant (minsert name r.2 tm) st
        resp := .ok r.1
        wal := if r.1 then [.deleteVector tenant name id] else []
        logs := if r.1 then
            (if appendOk 0 then []
             else ["failed to append WAL for delete_vector"])
          else [] }

/-! ## Lemmas about the association-list map -/

theorem mget_mremove {α β : Type} [DecidableEq α] (k k' : α)
    (l : List (α × β)) :
    mget (mremove k l) k' = if k' = k then none else mget l k' := by
  induction l with
  | nil => simp [mremove, mget]
  | cons p rest ih =>
    obtain ⟨a, b⟩ := p
    by_cases hpk : a = k <;> by_cases h : k' = a <;>
      simp_all [mremove, mget]

theorem mget_minsert {α β : Type} [DecidableEq α] (k k' : α) (v : β)
    (l : List (α × β)) :
    mget (minsert k v l) k' = if k' = k then some v else mget l k' := by
  by_cases h : k' = k <;> simp [minsert, mget, h, mget_mremove]

theorem mget_minsert_self {α β : Type} [DecidableEq α] (k : α) (v : β)
    (l : List (α × β)) : mget (minsert k v l) k = some v := by
  simp [mget_minsert]

theorem mget_minsert_ne {α β : Type} [DecidableEq α] {k k' : α} (v : β)
    (l : List (α × β)) (h : k' ≠ k) :
    mget (minsert k v l) k' = mget l k' := by
  simp [mget_minsert, h]

theorem mget_mremove_ne {α β : Type} [DecidableEq α] {k k' : α}
    (l : List (α × β)) (h : k' ≠ k) :
    mget (mremove k l) k' = mget l k' := by
  simp [mget_mremove, h]

theorem mget_mem {α β : Type} [DecidableEq α] {l : List (α × β)} {k : α}
    {v : β} (h : mget l k = some v) : (k, v) ∈ l := by
  induction l with
  | nil => simp [mget] at h
  | cons p rest ih =>
    obtain ⟨a, b⟩ := p
    by_cases hk : k = a
    · subst hk
      simp [mget] at h
      simp [h]
    · simp [mget, hk] at h
      exact List.mem_cons_of_mem _ (ih h)

theorem normSq_replicate_zero (n : Nat) : normSq (List.replicate n 0) = 0 := by
  induction n with
  | zero => simp [normSq]
  | succ m ih => simp [normSq, List.replicate_succ]

/-! ## The verified claims -/

/-- Claim C1, counterexample. The claim states that a snapshot-load error
at startup is fatal: the process stops before serving and never proceeds
on a substituted base state. In `main.rs:37-40` the `Err(e)` arm of
`load_collections_from_snapshot` merely logs the error and continues with
`HashMap::new()`: with a failing snapshot load and an empty WAL, startup
proceeds to serve (`some` state) on the empty base, instead of stopping
(`none`). -/
theorem c1_snapshot_error_counterexample :
    mainStartup .loadError [] = some [] ∧ mainStartup .loadError [] ≠ none := by
  constructor
  · rfl
  · simp [mainStartup, replayLines]

/-- Claim C1, amended: if at startup the snapshot file exists but cannot
be parsed, the error is only logged; startup substitutes the empty base
state, always replays the WAL on top of it, and the process proceeds to
serve traffic on the resulting state. -/
theorem c1_snapshot_error_not_fatal (wal : List WalLine) :
    mainStartup .loadError wal = some (replayLines wal []) ∧
    (mainStartup .loadError wal).isSome = true := by
  exact ⟨rfl, rfl⟩

/-- The WAL of claim C2: create collection `("t","c",3)`, upsert `"a"`,
upsert `"b"`, delete `"a"`. -/
def c2Lines : List WalLine :=
  [ .entry (.createCollection "t" "c" 3)
  , .entry (.upsertVector "t" "c" "a" [1, 0, 0] none)
  , .entry (.upsertVector "t" "c" "b" [0, 1, 0] none)
  , .entry (.deleteVector "t" "c" "a") ]

/-- The state obtained by replaying the WAL of claim C2 into the empty
state. -/
def c2State : Collections := replayLines c2Lines []

/-- Claim C2: replaying
`[CreateCollection("t","c",3), Upsert("a",[1,0,0]), Upsert("b",[0,1,0]),
Delete("a")]` into an empty state yields exactly one tenant `"t"`, whose
collection-name key set is exactly `["c"]`, with `"c"` of dimension 3 and
its only live vector `"b"` with values `[0,1,0]`. -/
theorem c2_wal_replay_roundtrip :
    c2State.map Prod.fst = ["t"] ∧
    (mget c2State "t").map (fun tm => tm.map Prod.fst) = some ["c"] ∧
    ((mget c2State "t").bind (fun tm => mget tm "c")).map
      (fun idx => (idx.dim, idx.vectors.map Prod.fst,
        (mget idx.vectors "b").map (fun r => r.values)))
      = some (3, ["b"], some [0, 1, 0]) := by
  norm_num [c2State, c2Lines, replayLines, applyEntry, InMemoryIndex.upsert,
    InMemoryIndex.delete, InMemoryIndex.new, normSq, mget, minsert, mremove]
  decide

/-- Claim C3, counterexample. The claim states that querying with the
all-zero vector fails with `InvalidInput` for every index state,
including an empty index and including `top_k = 0`. In `index.rs:125-127`
the `top_k == 0 || self.vectors.is_empty()` early return precedes the
zero-norm check, so on the empty 3-dimensional index a zero-vector query
returns `Ok([])`, both with `top_k = 7` and with `top_k = 0`. -/
theorem c3_zero_query_counterexample :
    (InMemoryIndex.new 3).query (fun _ _ _ => []) [0, 0, 0] 7 = .ok [] ∧
    (InMemoryIndex.new 3).query (fun _ _ _ => []) [0, 0, 0] 0 = .ok [] := by
  constructor <;> norm_num [InMemoryIndex.query, InMemoryIndex.new]

/-- Claim C3, amended: upserting the all-zero vector of the index's
dimension always fails with the zero-norm `InvalidInput` error (so no
record is stored), and querying with the all-zero vector fails with the
zero-norm `InvalidInput` error whenever `top_k > 0` and the index is
non-empty; when `top_k = 0` or the index is empty, the query instead
returns `Ok([])` without validating the norm. -/
theorem c3_zero_vector_rejected (s : InMemoryIndex) (id : String)
    (m : Option String) (k : Nat)
    (search : List ℚ → Nat → Nat → List (Nat × ℚ)) :
    s.upsert id (List.replicate s.dim 0) m = .error "vector norm must be > 0" ∧
    (k ≠ 0 → s.vectors ≠ [] →
      s.query search (List.replicate s.dim 0) k
        = .error "query vector norm must be > 0") ∧
    (k = 0 ∨ s.vectors = [] →
      s.query search (List.replicate s.dim 0) k = .ok []) := by
  refine ⟨?_, ?_, ?_⟩
  · simp [InMemoryIndex.upsert, normSq_replicate_zero]
  · intro hk hv
    simp [InMemoryIndex.query, normSq_replicate_zero, hk, hv]
  · intro h
    simp [InMemoryIndex.query]
    intro h'
    rcases h with h | h
    · exact absurd h h'
    · intro hv
      exact absurd h hv

/-- A concrete one-vector index of dimension 2, used to witness claim C3's
amended theorem on a non-empty index. -/
def c3Index : InMemoryIndex :=
  { dim := 2
    vectors := [("x", ⟨[1, 0], none⟩)]
    hnsw := [(0, [1, 0])]
    id_to_data_id := [("x", 0)]
    data_id_to_id := [(0, "x")]
    next_data_id := 1 }

/-- Witness for claim C3's amended theorem: on the concrete non-empty
index `c3Index`, the zero-vector upsert and the zero-vector query with
`top_k = 1` both fail, and the `top_k = 0` query returns `Ok([])`. -/
theorem c3_zero_vector_rejected_witness :
    ((1 : Nat) ≠ 0 ∧ c3Index.vectors ≠ []) ∧
    (c3Index.upsert "z" (List.replicate c3Index.dim 0) none
      = .error "vector norm must be > 0" ∧
     c3Index.query (fun _ _ _ => []) (List.replicate c3Index.dim 0) 1
      = .error "query vector norm must be > 0" ∧
     c3Index.query (fun _ _ _ => []) (List.replicate c3Index.dim 0) 0
      = .ok []) := by
  refine ⟨⟨by decide, by simp [c3Index]⟩, ?_, ?_, ?_⟩
  · exact (c3_zero_vector_rejected c3Index "z" none 1 (fun _ _ _ => [])).1
  · exact (c3_zero_vector_rejected c3Index "z" none 1 (fun _ _ _ => [])).2.1
      (by decide) (by simp [c3Index])
  · exact (c3_zero_vector_rejected c3Index "z" none 0 (fun _ _ _ => [])).2.2
      (Or.inl rfl)

/-- Claim C4, counterexample. The claim states `InMemoryIndex::new` fails
on dimension 0, so that no index of dimension 0 ever exists, replay
included. In `index.rs:33-56` the constructor is total and performs no
dimension check, and replaying a `CreateCollection` record with dimension
0 (storage.rs:113-122) creates exactly such an index. -/
theorem c4_dim_zero_counterexample :
    (InMemoryIndex.new 0).dim = 0 ∧
    mget ((mget (replayLines [.entry (.createCollection "t" "c" 0)] []) "t").getD [])
      "c" = some (InMemoryIndex.new 0) := by
  constructor
  · rfl
  · norm_num [replayLines, applyEntry, mget, minsert, mremove]

/-- Claim C4, amended: `InMemoryIndex::new` never fails and returns an
index of the requested dimension, 0 included; dimension 0 is rejected
only by the `create_collection` route (which answers 400, leaves the
state unchanged and appends nothing), while WAL replay of a
`CreateCollection` record with dimension 0 creates a dimension-0 index. -/
theorem c4_dim_zero_handling (d : Nat) (st : Collections)
    (t n : String) (ok : Nat → Bool) :
    (InMemoryIndex.new d).dim = d ∧
    (create_collection st t n 0 ok).state = st ∧
    (create_collection st t n 0 ok).resp
      = .error (400, "dimension must be greater than 0") ∧
    (create_collection st t n 0 ok).wal = [] ∧
    applyEntry [] (.createCollection t n 0) = [(t, [(n, InMemoryIndex.new 0)])] := by
  refine ⟨rfl, ?_, ?_, ?_, ?_⟩ <;>
    simp [create_collection, applyEntry, mget, minsert, mremove]

/-- Claim C7: the replay loop applies exactly the entries of the
parseable lines, in WAL order, and never aborts: a WAL mixing parseable
and unparseable (or blank, or unreadable) lines replays to the same state
as the sequence of its parsed entries. -/
theorem c7_replay_skips_unparseable (ls : List WalLine) (c : Collections) :
    replayLines ls c = (parsedEntries ls).foldl applyEntry c := by
  induction ls generalizing c with
  | nil => rfl
  | cons l rest ih =>
    cases l <;> simp [replayLines, parsedEntries, List.filterMap] at ih ⊢ <;>
      exact ih _

/-! ## Index-level operation sequences

The mutations a single `InMemoryIndex` undergoes through the route
handlers and WAL replay: an upsert (which leaves the index unchanged when
it returns an error, as the Rust method returns before mutating) and a
delete. -/

/-- One index-level mutation. -/
inductive IndexOp where
  | upsertOp (id : String) (values : List ℚ) (metadata : Option String)
  | deleteOp (id : String)
deriving DecidableEq, Repr

/-- Apply one mutation to an index. -/
def applyIndexOp (s : InMemoryIndex) : IndexOp → InMemoryIndex
  | .upsertOp id values metadata =>
    match s.upsert id values metadata with
    | .ok s' => s'
    | .error _ => s
  | .deleteOp id => (s.delete id).2

/-- Apply a sequence of mutations in order. -/
def applyIndexOps (s : InMemoryIndex) (ops : List IndexOp) : InMemoryIndex :=
  ops.foldl applyIndexOp s

/-- Whether an operation is an upsert of the external id `x`. -/
def IndexOp.upsertsId (x : String) : IndexOp → Bool
  | .upsertOp id _ _ => id == x
  | .deleteOp _ => false

theorem mem_mremove {α β : Type} [DecidableEq α] {p : α × β} {k : α}
    {l : List (α × β)} (h : p ∈ mremove k l) : p ∈ l := by
  induction l with
  | nil => simp [mremove] at h
  | cons q rest ih =>
    by_cases hq : q.1 = k
    · simp [mremove, hq] at h
      exact List.mem_cons_of_mem _ (ih h)
    · simp [mremove, hq] at h
      rcases h with h | h
      · simp [h]
      · exact List.mem_cons_of_mem _ (ih h)

/-- After `delete x` the ground-truth store never holds `x`, whether or
not the id existed. -/
theorem mget_vectors_delete_self (s : InMemoryIndex) (x : String) :
    mget ((s.delete x).2).vectors x = none := by
  unfold InMemoryIndex.delete
  by_cases h : (mget s.vectors x).isSome
  · simp only [h, if_true]
    cases hm : mget { s with vectors := mremove x s.vectors }.id_to_data_id x <;>
      simp [mget_mremove]
  · simp only [h]
    simp at h
    simp [h]

/-- A tombstoned external id stays absent from the ground-truth store
under any mutation that is not an upsert of that very id. -/
theorem deleted_id_stays_absent (s : InMemoryIndex) (x : String)
    (h : mget s.vectors x = none) (op : IndexOp)
    (hop : op.upsertsId x = false) :
    mget (applyIndexOp s op).vectors x = none := by
  cases op with
  | upsertOp y v m =>
    simp [IndexOp.upsertsId] at hop
    unfold applyIndexOp InMemoryIndex.upsert
    by_cases h1 : v.length ≠ s.dim
    · simp [h1, h]
    · by_cases h2 : normSq v = 0
      · simp [h1, h2, h]
      · cases hm : mget s.id_to_data_id y <;>
          simp [h1, h2, hm, mget_minsert, h] <;>
          exact fun hc => hop hc.symm
  | deleteOp y =>
    show mget ((s.delete y).2).vectors x = none
    unfold InMemoryIndex.delete
    by_cases hy : (mget s.vectors y).isSome
    · simp only [hy, if_true]
      cases hm : mget { s with vectors := mremove y s.vectors }.id_to_data_id y <;>
        simp [mget_mremove, h]
    · simp [hy, h]

/-- Absence of a tombstoned id is preserved along any sequence of
mutations that never re-upserts it. -/
theorem deleted_id_stays_absent_ops (s : InMemoryIndex) (x : String)
    (h : mget s.vectors x = none) (ops : List IndexOp)
    (hops : ∀ op ∈ ops, op.upsertsId x = false) :
    mget (applyIndexOps s ops).vectors x = none := by
  induction ops generalizing s with
  | nil => exact h
  | cons op rest ih =>
    exact ih (applyIndexOp s op)
      (deleted_id_stays_absent s x h op (hops op (by simp)))
      (fun o ho => hops o (List.mem_cons_of_mem _ ho))

/-- Every id produced by the query filtering loop is either already in the
accumulator or live in the ground-truth store. -/
theorem queryLoop_mem (s : InMemoryIndex) (top_k : Nat)
    (nb : List (Nat × ℚ)) (acc : List ScoredPoint) (p : ScoredPoint)
    (h : p ∈ queryLoop s top_k nb acc) :
    p ∈ acc ∨ (mget s.vectors p.id).isSome = true := by
  induction nb generalizing acc with
  | nil => exact Or.inl h
  | cons n rest ih =>
    obtain ⟨d_id, dist⟩ := n
    cases hm : mget s.data_id_to_id d_id with
    | none =>
      simp only [queryLoop, hm] at h
      exact ih acc h
    | some ext =>
      simp only [queryLoop, hm] at h
      cases hv : mget s.vectors ext with
      | none =>
        simp only [hv] at h
        exact ih acc h
      | some stored =>
        simp only [hv] at h
        by_cases hl :
            (acc ++ [(⟨ext, 1 - dist, stored.metadata⟩ : ScoredPoint)]).length
              = top_k
        · rw [if_pos hl] at h
          rcases List.mem_append.mp h with h' | h'
          · exact Or.inl h'
          · simp at h'
            subst h'
            exact Or.inr (by simp [hv])
        · rw [if_neg hl] at h
          rcases ih _ h with h' | h'
          · rcases List.mem_append.mp h' with h'' | h''
            · exact Or.inl h''
            · simp at h''
              subst h''
              exact Or.inr (by simp [hv])
          · exact Or.inr h'

/-- Every id a successful query returns is live in the ground-truth
store: the query path filters out tombstoned internal ids. -/
theorem query_result_ids_live (s : InMemoryIndex)
    (search : List ℚ → Nat → Nat → List (Nat × ℚ)) (q : List ℚ)
    (k : Nat) (res : List ScoredPoint)
    (h : s.query search q k = .ok res) (p : ScoredPoint) (hp : p ∈ res) :
    (mget s.vectors p.id).isSome = true := by
  unfold InMemoryIndex.query at h
  by_cases h1 : q.length ≠ s.dim
  · simp [h1] at h
  · by_cases h2 : k = 0 ∨ s.vectors = []
    · simp [h1, h2] at h
      subst h
      simp at hp
    · by_cases h3 : normSq q = 0
      · simp [h1, h2, h3] at h
      · simp [h1, h2, h3] at h
        subst h
        rcases queryLoop_mem s k _ [] p hp with h' | h'
        · simp at h'
        · exact h'

/-- Claim C8: once `delete x` has returned `true`, no subsequent query
returns `x` among its results — whatever the external graph search
returns, and after any further mutations that do not re-upsert `x`
itself. -/
theorem c8_deleted_never_returned (s : InMemoryIndex) (x : String)
    (ops : List IndexOp)
    (search : List ℚ → Nat → Nat → List (Nat × ℚ)) (q : List ℚ)
    (k : Nat) (res : List ScoredPoint)
    (_hdel : (s.delete x).1 = true)
    (hops : ∀ op ∈ ops, op.upsertsId x = false)
    (hq : (applyIndexOps (s.delete x).2 ops).query search q k = .ok res) :
    ∀ p ∈ res, p.id ≠ x := by
  intro p hp hx
  have hlive := query_result_ids_live _ search q k res hq p hp
  have habsent := deleted_id_stays_absent_ops (s.delete x).2 x
    (mget_vectors_delete_self s x) ops hops
  rw [hx, habsent] at hlive
  simp at hlive

/-- A concrete one-vector index of dimension 1 (external id `"a"`,
internal id 0), used to witness claim C8. -/
def c8Index : InMemoryIndex :=
  { dim := 1
    vectors := [("a", ⟨[1], none⟩)]
    hnsw := [(0, [1])]
    id_to_data_id := [("a", 0)]
    data_id_to_id := [(0, "a")]
    next_data_id := 1 }

/-- The mutations run after the delete in claim C8's witness: an upsert of
the unrelated id `"b"`. -/
def c8Ops : List IndexOp := [.upsertOp "b" [1] none]

/-- A graph search that still returns the tombstoned internal id 0 (as the
HNSW graph, which has no hard delete, may) alongside the live internal
id 1. -/
def c8Search : List ℚ → Nat → Nat → List (Nat × ℚ) :=
  fun _ _ _ => [(0, 0), (1, 0)]

/-- Witness for claim C8: after deleting `"a"` from `c8Index` and
upserting `"b"`, a query whose graph search still surfaces the tombstoned
internal id 0 returns only `"b"`, and no returned id is `"a"`. -/
theorem c8_deleted_never_returned_witness :
    (c8Index.delete "a").1 = true ∧
    (∀ op ∈ c8Ops, op.upsertsId "a" = false) ∧
    (applyIndexOps (c8Index.delete "a").2 c8Ops).query c8Search [1] 2
      = .ok [⟨"b", 1, none⟩] ∧
    (∀ p ∈ ([⟨"b", 1, none⟩] : List ScoredPoint), p.id ≠ "a") := by
  have hdel : (c8Index.delete "a").1 = true := by decide
  have hops : ∀ op ∈ c8Ops, op.upsertsId "a" = false := by decide
  have hq : (applyIndexOps (c8Index.delete "a").2 c8Ops).query c8Search [1] 2
      = .ok [⟨"b", 1, none⟩] := by
    norm_num [c8Index, c8Ops, c8Search, applyIndexOps, applyIndexOp,
      InMemoryIndex.delete, InMemoryIndex.upsert, InMemoryIndex.query,
      queryLoop, normSq, mget, minsert, mremove]
  exact ⟨hdel, hops, hq,
    c8_deleted_never_returned c8Index "a" c8Ops c8Search [1] 2
      [⟨"b", 1, none⟩] hdel hops hq⟩

/-! ## Characterizations of the upsert and delete outcomes -/

/-- The state produced by a successful upsert of an id with no existing
internal-id binding (the allocation branch, index.rs:87-92). -/
def upsertFreshState (s : InMemoryIndex) (id : String) (v : List ℚ)
    (m : Option String) : InMemoryIndex :=
  { s with
    next_data_id := s.next_data_id + 1
    id_to_data_id := minsert id s.next_data_id s.id_to_data_id
    data_id_to_id := minsert s.next_data_id id s.data_id_to_id
    hnsw := s.hnsw ++ [(s.next_data_id, v)]
    vectors := minsert id ⟨v, m⟩ s.vectors }

/-- The state produced by a successful upsert of an id that already has
internal id `d` (the reuse branch, index.rs:85-86). -/
def upsertReuseState (s : InMemoryIndex) (id : String) (v : List ℚ)
    (m : Option String) (d : Nat) : InMemoryIndex :=
  { s with
    hnsw := s.hnsw ++ [(d, v)]
    vectors := minsert id ⟨v, m⟩ s.vectors }

theorem upsert_fresh (s : InMemoryIndex) (id : String) (v : List ℚ)
    (m : Option String) (h1 : v.length = s.dim) (h2 : normSq v ≠ 0)
    (hm : mget s.id_to_data_id id = none) :
    s.upsert id v m = .ok (upsertFreshState s id v m) := by
  simp [InMemoryIndex.upsert, h1, h2, hm, upsertFreshState]

theorem upsert_reuse (s : InMemoryIndex) (id : String) (v : List ℚ)
    (m : Option String) (d : Nat) (h1 : v.length = s.dim)
    (h2 : normSq v ≠ 0) (hm : mget s.id_to_data_id id = some d) :
    s.upsert id v m = .ok (upsertReuseState s id v m d) := by
  simp [InMemoryIndex.upsert, h1, h2, hm, upsertReuseState]

/-- Every run of `upsert` is an error (state kept by the callers), a
fresh allocation, or a reuse of the existing internal id. -/
theorem upsert_cases (s : InMemoryIndex) (id : String) (v : List ℚ)
    (m : Option String) :
    (∃ e, s.upsert id v m = .error e) ∨
    (mget s.id_to_data_id id = none ∧
      s.upsert id v m = .ok (upsertFreshState s id v m)) ∨
    (∃ d, mget s.id_to_data_id id = some d ∧
      s.upsert id v m = .ok (upsertReuseState s id v m d)) := by
  by_cases h1 : v.length = s.dim
  · by_cases h2 : normSq v = 0
    · exact Or.inl ⟨"vector norm must be > 0",
        by simp [InMemoryIndex.upsert, h1, h2]⟩
    · cases hm : mget s.id_to_data_id id with
      | none => exact Or.inr (Or.inl ⟨rfl, upsert_fresh s id v m h1 h2 hm⟩)
      | some d =>
        exact Or.inr (Or.inr ⟨d, rfl, upsert_reuse s id v m d h1 h2 hm⟩)
  · exact Or.inl ⟨"expected vector of dimension " ++ toString s.dim
      ++ ", got " ++ toString v.length, by simp [InMemoryIndex.upsert, h1]⟩

/-- The state produced by deleting a present id whose internal id is `d`
(index.rs:106-111). -/
def deleteFoundState (s : InMemoryIndex) (x : String) (d : Nat) :
    InMemoryIndex :=
  { s with
    vectors := mremove x s.vectors
    id_to_data_id := mremove x s.id_to_data_id
    data_id_to_id := mremove d s.data_id_to_id }

/-- Every run of `delete` misses (returning `false`, state unchanged),
or hits with a bound internal id, or hits with no internal-id binding. -/
theorem delete_cases (s : InMemoryIndex) (x : String) :
    (mget s.vectors x = none ∧ s.delete x = (false, s)) ∨
    (∃ d, (mget s.vectors x).isSome = true ∧
      mget s.id_to_data_id x = some d ∧
      s.delete x = (true, deleteFoundState s x d)) ∨
    ((mget s.vectors x).isSome = true ∧ mget s.id_to_data_id x = none ∧
      s.delete x = (true, { s with vectors := mremove x s.vectors })) := by
  by_cases hv : (mget s.vectors x).isSome
  · cases hm : mget s.id_to_data_id x with
    | some d =>
      refine Or.inr (Or.inl ⟨d, hv, rfl, ?_⟩)
      simp [InMemoryIndex.delete, hv, hm, deleteFoundState]
    | none =>
      refine Or.inr (Or.inr ⟨hv, rfl, ?_⟩)
      simp [InMemoryIndex.delete, hv, hm]
  · refine Or.inl ⟨by simpa using hv, ?_⟩
    simp [InMemoryIndex.delete, hv]

/-! ## Internal-id discipline (claim C9) -/

/-- One mutation never decreases `next_data_id`: upsert either reuses an
id (counter untouched) or allocates the counter value and increments it;
delete never touches the counter. -/
theorem next_data_id_mono_op (s : InMemoryIndex) (op : IndexOp) :
    s.next_data_id ≤ (applyIndexOp s op).next_data_id := by
  cases op with
  | upsertOp id v m =>
    show s.next_data_id ≤ (match s.upsert id v m with
      | .ok s' => s' | .error _ => s).next_data_id
    rcases upsert_cases s id v m with ⟨e, he⟩ | ⟨_, he⟩ | ⟨d, _, he⟩ <;>
      simp [he, upsertFreshState, upsertReuseState]
  | deleteOp id =>
    show s.next_data_id ≤ ((s.delete id).2).next_data_id
    rcases delete_cases s id with ⟨_, he⟩ | ⟨d, _, _, he⟩ | ⟨_, _, he⟩ <;>
      simp [he, deleteFoundState]

/-- `next_data_id` is monotone across every mutation sequence. -/
theorem next_data_id_mono (s : InMemoryIndex) (ops : List IndexOp) :
    s.next_data_id ≤ (applyIndexOps s ops).next_data_id := by
  induction ops generalizing s with
  | nil => exact Nat.le_refl _
  | cons op rest ih =>
    exact Nat.le_trans (next_data_id_mono_op s op) (ih (applyIndexOp s op))

/-- All assigned internal ids lie strictly below the counter. -/
def idsBelowNext (s : InMemoryIndex) : Prop :=
  ∀ p ∈ s.id_to_data_id, p.2 < s.next_data_id

/-- One mutation preserves `idsBelowNext`. -/
theorem idsBelowNext_op (s : InMemoryIndex) (op : IndexOp)
    (h : idsBelowNext s) : idsBelowNext (applyIndexOp s op) := by
  cases op with
  | upsertOp id v m =>
    show idsBelowNext (match s.upsert id v m with
      | .ok s' => s' | .error _ => s)
    rcases upsert_cases s id v m with ⟨e, he⟩ | ⟨_, he⟩ | ⟨d, hd, he⟩
    · simpa [he] using h
    · simp only [he]
      intro p hp
      simp only [upsertFreshState, minsert, List.mem_cons] at hp
      rcases hp with hp | hp
      · simp [upsertFreshState, hp]
      · exact Nat.lt_trans (h p (mem_mremove hp)) (Nat.lt_succ_self _)
    · simp only [he]
      intro p hp
      simp only [upsertReuseState] at hp
      exact h p hp
  | deleteOp id =>
    show idsBelowNext ((s.delete id).2)
    rcases delete_cases s id with ⟨_, he⟩ | ⟨d, _, _, he⟩ | ⟨_, _, he⟩
    · simpa [he] using h
    · simp only [he]
      intro p hp
      simp only [deleteFoundState] at hp
      exact h p (mem_mremove hp)
    · simp only [he]
      intro p hp
      exact h p hp

/-- `idsBelowNext` holds along every mutation sequence. -/
theorem idsBelowNext_ops (s : InMemoryIndex) (ops : List IndexOp)
    (h : idsBelowNext s) : idsBelowNext (applyIndexOps s ops) := by
  induction ops generalizing s with
  | nil => exact h
  | cons op rest ih => exact ih (applyIndexOp s op) (idsBelowNext_op s op h)

/-- An internal id below the counter and absent from the reverse map stays
absent (and below the counter) under one mutation: allocation only ever
hands out the counter value. -/
theorem dataid_absent_op (s : InMemoryIndex) (d : Nat) (op : IndexOp)
    (hlt : d < s.next_data_id) (hnone : mget s.data_id_to_id d = none) :
    d < (applyIndexOp s op).next_data_id ∧
    mget (applyIndexOp s op).data_id_to_id d = none := by
  cases op with
  | upsertOp id v m =>
    show d < (match s.upsert id v m with
        | .ok s' => s' | .error _ => s).next_data_id ∧
      mget (match s.upsert id v m with
        | .ok s' => s' | .error _ => s).data_id_to_id d = none
    rcases upsert_cases s id v m with ⟨e, he⟩ | ⟨_, he⟩ | ⟨d', _, he⟩
    · simp [he, hlt, hnone]
    · refine ⟨by simp [he, upsertFreshState, Nat.lt_succ_of_lt hlt], ?_⟩
      simp only [he, upsertFreshState]
      rw [mget_minsert]
      simp [Nat.ne_of_lt hlt, hnone]
    · simp [he, upsertReuseState, hlt, hnone]
  | deleteOp id =>
    show d < ((s.delete id).2).next_data_id ∧
      mget ((s.delete id).2).data_id_to_id d = none
    rcases delete_cases s id with ⟨_, he⟩ | ⟨d', _, _, he⟩ | ⟨_, _, he⟩
    · simp [he, hlt, hnone]
    · refine ⟨by simp [he, deleteFoundState, hlt], ?_⟩
      simp only [he, deleteFoundState]
      rw [mget_mremove]
      by_cases hd : d = d' <;> simp [hd, hnone]
    · simp [he, hlt, hnone]

/-- An internal id below the counter and absent from the reverse map stays
absent under every mutation sequence: a retired id is never reassigned. -/
theorem dataid_absent_ops (s : InMemoryIndex) (d : Nat)
    (ops : List IndexOp) (hlt : d < s.next_data_id)
    (hnone : mget s.data_id_to_id d = none) :
    mget (applyIndexOps s ops).data_id_to_id d = none := by
  induction ops generalizing s with
  | nil => exact hnone
  | cons op rest ih =>
    obtain ⟨hlt', hnone'⟩ := dataid_absent_op s d op hlt hnone
    exact ih (applyIndexOp s op) hlt' hnone'

/-- Claim C9: `next_data_id` is monotone across every sequence of upserts
and deletes; on every state reachable from a fresh index all assigned
internal ids lie below the counter; an internal id retired by a
successful delete is never mapped again by any later mutation sequence;
re-upserting an absent (deleted) external id allocates the fresh counter
value; and upserting a live external id reuses its existing internal id
without touching the counter. -/
theorem c9_internal_id_discipline (s s' : InMemoryIndex)
    (ops : List IndexOp) (x : String) (v : List ℚ) (m : Option String)
    (d dim : Nat) :
    (s.next_data_id ≤ (applyIndexOps s ops).next_data_id) ∧
    (idsBelowNext (applyIndexOps (InMemoryIndex.new dim) ops)) ∧
    (idsBelowNext s → mget s.id_to_data_id x = some d →
      (s.delete x).1 = true →
      mget (applyIndexOps (s.delete x).2 ops).data_id_to_id d = none) ∧
    (mget s.id_to_data_id x = none → s.upsert x v m = .ok s' →
      mget s'.id_to_data_id x = some s.next_data_id ∧
      s'.next_data_id = s.next_data_id + 1) ∧
    (mget s.id_to_data_id x = some d → s.upsert x v m = .ok s' →
      mget s'.id_to_data_id x = some d ∧
      s'.next_data_id = s.next_data_id) := by
  refine ⟨next_data_id_mono s ops, ?_, ?_, ?_, ?_⟩
  · exact idsBelowNext_ops (InMemoryIndex.new dim) ops
      (by intro p hp; simp [InMemoryIndex.new] at hp)
  · intro hWF hmx hdel
    rcases delete_cases s x with ⟨_, he⟩ | ⟨d', _, hm', he⟩ | ⟨_, hm', he⟩
    · rw [he] at hdel
      simp at hdel
    · have hd : d' = d := by
        rw [hmx] at hm'
        exact (Option.some.inj hm').symm
      subst hd
      have hlt : d' < s.next_data_id := hWF (x, d') (mget_mem hmx)
      refine dataid_absent_ops _ d' ops ?_ ?_
      · simp [he, deleteFoundState, hlt]
      · simp only [he, deleteFoundState]
        rw [mget_mremove]
        simp
    · rw [hmx] at hm'
      simp at hm'
  · intro hm hok
    rcases upsert_cases s x v m with ⟨e, he⟩ | ⟨_, he⟩ | ⟨d', hm', he⟩
    · rw [he] at hok
      simp at hok
    · rw [he] at hok
      have hs : s' = upsertFreshState s x v m := (Except.ok.inj hok).symm
      subst hs
      refine ⟨?_, rfl⟩
      simp [upsertFreshState, mget_minsert]
    · rw [hm] at hm'
      simp at hm'
  · intro hm hok
    rcases upsert_cases s x v m with ⟨e, he⟩ | ⟨hm', he⟩ | ⟨d', hm', he⟩
    · rw [he] at hok
      simp at hok
    · rw [hm] at hm'
      simp at hm'
    · have hd : d' = d := by
        rw [hm] at hm'
        exact (Option.some.inj hm').symm
      subst hd
      rw [he] at hok
      have hs : s' = upsertReuseState s x v m d' := (Except.ok.inj hok).symm
      subst hs
      exact ⟨hm, rfl⟩

/-- A concrete one-vector index of dimension 1 (external id `"a"`,
internal id 0, counter 1), used to witness claim C9. -/
def c9Index : InMemoryIndex :=
  { dim := 1
    vectors := [("a", ⟨[1], none⟩)]
    hnsw := [(0, [1])]
    id_to_data_id := [("a", 0)]
    data_id_to_id := [(0, "a")]
    next_data_id := 1 }

/-- The mutation sequence of claim C9's witness: after deleting `"a"`,
upsert the unrelated id `"b"` (which must get a fresh internal id, not
the retired 0). -/
def c9Ops : List IndexOp := [.upsertOp "b" [1] none]

/-- The state `c9Index.upsert "b" [1] none` produces: `"b"` is allocated
the fresh internal id 1 and the counter moves to 2. -/
def c9IndexB : InMemoryIndex :=
  { dim := 1
    vectors := [("b", ⟨[1], none⟩), ("a", ⟨[1], none⟩)]
    hnsw := [(0, [1]), (1, [1])]
    id_to_data_id := [("b", 1), ("a", 0)]
    data_id_to_id := [(1, "b"), (0, "a")]
    next_data_id := 2 }

/-- The state `c9Index.upsert "a" [1] none` produces: the live id `"a"`
keeps internal id 0 and the counter stays 1. -/
def c9IndexA : InMemoryIndex :=
  { dim := 1
    vectors := [("a", ⟨[1], none⟩)]
    hnsw := [(0, [1]), (0, [1])]
    id_to_data_id := [("a", 0)]
    data_id_to_id := [(0, "a")]
    next_data_id := 1 }

/-- Witness for claim C9 on the concrete index `c9Index`: deleting `"a"`
retires internal id 0, which stays unmapped after upserting `"b"`;
upserting the absent `"b"` allocates the counter value 1 and bumps the
counter; upserting the live `"a"` reuses internal id 0 and keeps the
counter. -/
theorem c9_internal_id_discipline_witness :
    (idsBelowNext c9Index ∧ mget c9Index.id_to_data_id "a" = some 0 ∧
      (c9Index.delete "a").1 = true ∧
      mget c9Index.id_to_data_id "b" = none ∧
      c9Index.upsert "b" [1] none = .ok c9IndexB ∧
      c9Index.upsert "a" [1] none = .ok c9IndexA) ∧
    mget (applyIndexOps (c9Index.delete "a").2 c9Ops).data_id_to_id 0
      = none ∧
    (mget c9IndexB.id_to_data_id "b" = some c9Index.next_data_id ∧
      c9IndexB.next_data_id = c9Index.next_data_id + 1) ∧
    (mget c9IndexA.id_to_data_id "a" = some 0 ∧
      c9IndexA.next_data_id = c9Index.next_data_id) := by
  have hWF : idsBelowNext c9Index := by
    unfold idsBelowNext
    decide
  have hma : mget c9Index.id_to_data_id "a" = some 0 := by decide
  have hdel : (c9Index.delete "a").1 = true := by decide
  have hmb : mget c9Index.id_to_data_id "b" = none := by decide
  have hupB : c9Index.upsert "b" [1] none = .ok c9IndexB := by
    norm_num [c9Index, c9IndexB, InMemoryIndex.upsert, normSq, mget,
      minsert, mremove]
    simp
  have hupA : c9Index.upsert "a" [1] none = .ok c9IndexA := by
    norm_num [c9Index, c9IndexA, InMemoryIndex.upsert, normSq, mget,
      minsert, mremove]
  refine ⟨⟨hWF, hma, hdel, hmb, hupB, hupA⟩, ?_, ?_, ?_⟩
  · exact (c9_internal_id_discipline c9Index c9IndexA c9Ops "a" [1] none
      0 1).2.2.1 hWF hma hdel
  · exact (c9_internal_id_discipline c9Index c9IndexB c9Ops "b" [1] none
      0 1).2.2.2.1 hmb hupB
  · exact (c9_internal_id_discipline c9Index c9IndexA c9Ops "a" [1] none
      0 1).2.2.2.2 hma hupA

/-! ## Log-after-apply (claim C5) -/

/-- The WAL record `upsert_vectors` appends for one batch item
(routes.rs:232-238). -/
def toWal (tenant name : String) (v : UpsertItem) : WalEntry :=
  .upsertVector tenant name v.id v.values v.metadata

/-- The maximal prefix of an upsert batch whose in-memory upserts
succeed; used to state which mutations of a batch commit (and hence which
WAL records the handler appends). -/
def committedItems (index : InMemoryIndex) : List UpsertItem → List UpsertItem
  | [] => []
  | v :: rest =>
    match index.upsert v.id v.values v.metadata with
    | .error _ => []
    | .ok index' => v :: committedItems index' rest

/-- The index state after running an upsert batch, stopping at the first
failure (whose error aborts the request but keeps prior mutations). -/
def applyItems (index : InMemoryIndex) : List UpsertItem → InMemoryIndex
  | [] => index
  | v :: rest =>
    match index.upsert v.id v.values v.metadata with
    | .error _ => index
    | .ok index' => applyItems index' rest

/-- The final index of the upsert loop is the batch applied up to the
first failure, for any append oracle and counters. -/
theorem upsertLoop_state (tenant name : String) (ok : Nat → Bool)
    (index : InMemoryIndex) (items : List UpsertItem) (count k : Nat) :
    (upsertLoop tenant name ok index items count k).1
      = applyItems index items := by
  induction items generalizing index count k with
  | nil => rfl
  | cons v rest ih =>
    show (upsertLoop tenant name ok index (v :: rest) count k).1 = _
    rw [upsertLoop]
    cases h : index.upsert v.id v.values v.metadata with
    | error e => simp [applyItems, h]
    | ok index' => simp [applyItems, h, ih]

/-- The records the upsert loop hands to `append_entry` are exactly those
of the committed prefix, in commit order. -/
theorem upsertLoop_wal (tenant name : String) (ok : Nat → Bool)
    (index : InMemoryIndex) (items : List UpsertItem) (count k : Nat) :
    (upsertLoop tenant name ok index items count k).2.2.1
      = (committedItems index items).map (toWal tenant name) := by
  induction items generalizing index count k with
  | nil => rfl
  | cons v rest ih =>
    rw [upsertLoop]
    cases h : index.upsert v.id v.values v.metadata with
    | error e => simp [committedItems, h]
    | ok index' => simp [committedItems, h, toWal, ih]

/-- The upsert loop's final index, response and appended records do not
depend on the append oracle or counters (only its logs do). -/
theorem upsertLoop_indep (tenant name : String) (ok₁ ok₂ : Nat → Bool)
    (index : InMemoryIndex) (items : List UpsertItem) (count k₁ k₂ : Nat) :
    (upsertLoop tenant name ok₁ index items count k₁).1
      = (upsertLoop tenant name ok₂ index items count k₂).1 ∧
    (upsertLoop tenant name ok₁ index items count k₁).2.1
      = (upsertLoop tenant name ok₂ index items count k₂).2.1 ∧
    (upsertLoop tenant name ok₁ index items count k₁).2.2.1
      = (upsertLoop tenant name ok₂ index items count k₂).2.2.1 := by
  induction items generalizing index count k₁ k₂ with
  | nil => exact ⟨rfl, rfl, rfl⟩
  | cons v rest ih =>
    rw [upsertLoop, upsertLoop]
    cases h : index.upsert v.id v.values v.metadata with
    | error e => exact ⟨rfl, rfl, rfl⟩
    | ok index' =>
      obtain ⟨h1, h2, h3⟩ := ih index' (count + 1) (k₁ + 1) (k₂ + 1)
      exact ⟨h1, h2, by simp [h3]⟩

/-- Claim C5: for every mutating handler, the append oracle (whether each
WAL append succeeds or fails) never influences the new state, the
response, or which records are appended — a failed append is only logged
and the operation still reports the same (successful) result; and records
are handed to `append_entry` only for mutations that have already been
applied to the in-memory state: `create_collection` appends only when the
collection was inserted, `delete_collection` only when it was removed,
`delete_vector` only when the id existed (and is gone from the new
state), and `upsert_vectors` appends exactly the records of the batch
prefix that committed, in commit order. -/
theorem c5_log_after_apply (st : Collections) (tenant name id : String)
    (dimension : Nat) (items : List UpsertItem)
    (tm : List (String × InMemoryIndex)) (index : InMemoryIndex)
    (ok ok₁ ok₂ : Nat → Bool) :
    ((create_collection st tenant name dimension ok₁).state
        = (create_collection st tenant name dimension ok₂).state ∧
      (create_collection st tenant name dimension ok₁).resp
        = (create_collection st tenant name dimension ok₂).resp ∧
      (create_collection st tenant name dimension ok₁).wal
        = (create_collection st tenant name dimension ok₂).wal) ∧
    ((delete_collection st tenant name ok₁).state
        = (delete_collection st tenant name ok₂).state ∧
      (delete_collection st tenant name ok₁).resp
        = (delete_collection st tenant name ok₂).resp ∧
      (delete_collection st tenant name ok₁).wal
        = (delete_collection st tenant name ok₂).wal) ∧
    ((upsert_vectors st tenant name items ok₁).state
        = (upsert_vectors st tenant name items ok₂).state ∧
      (upsert_vectors st tenant name items ok₁).resp
        = (upsert_vectors st tenant name items ok₂).resp ∧
      (upsert_vectors st tenant name items ok₁).wal
        = (upsert_vectors st tenant name items ok₂).wal) ∧
    ((delete_vector st tenant name id ok₁).state
        = (delete_vector st tenant name id ok₂).state ∧
      (delete_vector st tenant name id ok₁).resp
        = (delete_vector st tenant name id ok₂).resp ∧
      (delete_vector st tenant name id ok₁).wal
        = (delete_vector st tenant name id ok₂).wal) ∧
    ((create_collection st tenant name dimension ok).wal ≠ [] →
      (create_collection st tenant name dimension ok).resp
          = .ok (name, dimension) ∧
      mget ((mget (create_collection st tenant name dimension ok).state
          tenant).getD []) name = some (InMemoryIndex.new dimension)) ∧
    ((delete_collection st tenant name ok).wal ≠ [] →
      (delete_collection st tenant name ok).resp = .ok true ∧
      mget ((mget (delete_collection st tenant name ok).state
          tenant).getD []) name = none) ∧
    (mget st tenant = some tm → mget tm name = some index →
      (upsert_vectors st tenant name items ok).wal
          = (committedItems index items).map (toWal tenant name) ∧
      (upsert_vectors st tenant name items ok).state
          = minsert tenant (minsert name (applyItems index items) tm) st) ∧
    (mget st tenant = some tm → mget tm name = some index →
      (delete_vector st tenant name id ok).wal ≠ [] →
      (index.delete id).1 = true ∧
      (delete_vector st tenant name id ok).resp = .ok true ∧
      mget ((index.delete id).2).vectors id = none ∧
      (delete_vector st tenant name id ok).state
          = minsert tenant (minsert name ((index.delete id).2) tm) st) := by
  refine ⟨?_, ?_, ?_, ?_, ?_, ?_, ?_, ?_⟩
  · unfold create_collection
    by_cases h0 : dimension = 0
    · simp [h0]
    · cases hm : mget st tenant with
      | none => simp [h0, hm, mget]
      | some tm' =>
        by_cases hn : (mget tm' name).isSome <;> simp [h0, hm, hn]
  · unfold delete_collection
    cases hm : mget st tenant with
    | none => simp [hm]
    | some tm' =>
      by_cases hn : (mget tm' name).isSome <;> simp [hm, hn]
  · unfold upsert_vectors
    cases hm : mget st tenant with
    | none => simp [hm]
    | some tm' =>
      cases hn : mget tm' name with
      | none => simp [hm, hn]
      | some index' =>
        obtain ⟨h1, h2, h3⟩ := upsertLoop_indep tenant name ok₁ ok₂
          index' items 0 0 0
        simp [hm, hn, h1, h2, h3]
  · unfold delete_vector
    cases hm : mget st tenant with
    | none => simp [hm]
    | some tm' =>
      cases hn : mget tm' name with
      | none => simp [hm, hn]
      | some index' => simp [hm, hn]
  · unfold create_collection
    by_cases h0 : dimension = 0
    · simp [h0]
    · cases hm : mget st tenant with
      | none =>
        intro _
        simp [h0, hm, mget, mget_minsert]
      | some tm' =>
        by_cases hn : (mget tm' name).isSome
        · simp [h0, hm, hn]
        · intro _
          simp [h0, hm, hn, mget_minsert]
  · unfold delete_collection
    cases hm : mget st tenant with
    | none => simp [hm]
    | some tm' =>
      by_cases hn : (mget tm' name).isSome
      · intro _
        refine ⟨by simp [hm, hn], ?_⟩
        by_cases hemp : mremove name tm' = []
        · simp [hm, hn, hemp, mget, mget_mremove]
        · simp [hm, hn, hemp, mget_minsert, mget_mremove]
      · simp [hm, hn]
  · intro hm hn
    unfold upsert_vectors
    simp only [hm, hn]
    exact ⟨upsertLoop_wal tenant name ok index items 0 0,
      by rw [upsertLoop_state]⟩
  · intro hm hn
    unfold delete_vector
    simp only [hm, hn]
    by_cases hd : (index.delete id).1
    · intro _
      refine ⟨hd, by simp [hd], ?_, by simp⟩
      rcases delete_cases index id with ⟨hv, he⟩ | ⟨d', _, _, he⟩ | ⟨_, _, he⟩
      · rw [he] at hd
        simp at hd
      · simp [he, deleteFoundState, mget_mremove]
      · simp [he, mget_mremove]
    · simp [hd]

/-- A concrete one-vector index used to witness claim C5. -/
def c5Index : InMemoryIndex :=
  { dim := 1
    vectors := [("a", ⟨[1], none⟩)]
    hnsw := [(0, [1])]
    id_to_data_id := [("a", 0)]
    data_id_to_id := [(0, "a")]
    next_data_id := 1 }

/-- The tenant map of claim C5's witness registry. -/
def c5Tm : List (String × InMemoryIndex) := [("c", c5Index)]

/-- The registry of claim C5's witness: tenant `"t"` owns collection
`"c"`. -/
def c5St : Collections := [("t", c5Tm)]

/-- The upsert batch of claim C5's witness. -/
def c5Items : List UpsertItem := [⟨"b", [1], none⟩]

/-- Witness for claim C5 on the concrete registry `c5St`, exercised with
the always-failing append oracle: every handler still reports success and
appends exactly the records of its applied mutations. -/
theorem c5_log_after_apply_witness :
    (mget c5St "t" = some c5Tm ∧ mget c5Tm "c" = some c5Index ∧
      (create_collection c5St "t" "d" 2 (fun _ => false)).wal ≠ [] ∧
      (delete_collection c5St "t" "c" (fun _ => false)).wal ≠ [] ∧
      (delete_vector c5St "t" "c" "a" (fun _ => false)).wal ≠ []) ∧
    ((upsert_vectors c5St "t" "c" c5Items (fun _ => false)).resp
      = (upsert_vectors c5St "t" "c" c5Items (fun _ => true)).resp) ∧
    ((create_collection c5St "t" "d" 2 (fun _ => false)).resp
        = .ok ("d", 2) ∧
      mget ((mget (create_collection c5St "t" "d" 2
        (fun _ => false)).state "t").getD []) "d"
        = some (InMemoryIndex.new 2)) ∧
    ((delete_collection c5St "t" "c" (fun _ => false)).resp = .ok true ∧
      mget ((mget (delete_collection c5St "t" "c"
        (fun _ => false)).state "t").getD []) "c" = none) ∧
    ((upsert_vectors c5St "t" "c" c5Items (fun _ => false)).wal
        = (committedItems c5Index c5Items).map (toWal "t" "c") ∧
      (upsert_vectors c5St "t" "c" c5Items (fun _ => false)).state
        = minsert "t" (minsert "c" (applyItems c5Index c5Items) c5Tm) c5St) ∧
    ((c5Index.delete "a").1 = true ∧
      (delete_vector c5St "t" "c" "a" (fun _ => false)).resp = .ok true ∧
      mget ((c5Index.delete "a").2).vectors "a" = none ∧
      (delete_vector c5St "t" "c" "a" (fun _ => false)).state
        = minsert "t" (minsert "c" ((c5Index.delete "a").2) c5Tm) c5St) := by
  have hm : mget c5St "t" = some c5Tm := by decide
  have hn : mget c5Tm "c" = some c5Index := by decide
  have hw1 : (create_collection c5St "t" "d" 2 (fun _ => false)).wal ≠ [] := by
    decide
  have hw2 : (delete_collection c5St "t" "c" (fun _ => false)).wal ≠ [] := by
    decide
  have hw3 : (delete_vector c5St "t" "c" "a" (fun _ => false)).wal ≠ [] := by
    decide
  refine ⟨⟨hm, hn, hw1, hw2, hw3⟩, ?_, ?_, ?_, ?_, ?_⟩
  · exact (c5_log_after_apply c5St "t" "c" "a" 2 c5Items c5Tm c5Index
      (fun _ => false) (fun _ => false) (fun _ => true)).2.2.1.2.1
  · exact (c5_log_after_apply c5St "t" "d" "a" 2 c5Items c5Tm c5Index
      (fun _ => false) (fun _ => false) (fun _ => true)).2.2.2.2.1 hw1
  · exact (c5_log_after_apply c5St "t" "c" "a" 2 c5Items c5Tm c5Index
      (fun _ => false) (fun _ => false) (fun _ => true)).2.2.2.2.2.1 hw2
  · exact (c5_log_after_apply c5St "t" "c" "a" 2 c5Items c5Tm c5Index
      (fun _ => false) (fun _ => false) (fun _ => true)).2.2.2.2.2.2.1 hm hn
  · exact (c5_log_after_apply c5St "t" "c" "a" 2 c5Items c5Tm c5Index
      (fun _ => false) (fun _ => false) (fun _ => true)).2.2.2.2.2.2.2 hm hn hw3

/-! ## Tenant isolation (claim C10)

The handlers dispatch on `mget st tenant` only, and rebuild the state
only at the `tenant` key (`minsert tenant … st` / `mremove tenant st`),
so other tenants' entries are untouched and the outcome is a function of
the requesting tenant's own entry. `query_vectors` and
`list_collections` take the lock in read mode and return no state at
all in this model. -/

theorem create_collection_frame (st : Collections) (t t' n : String)
    (d : Nat) (ok : Nat → Bool) (h : t' ≠ t) :
    mget (create_collection st t n d ok).state t' = mget st t' := by
  unfold create_collection
  by_cases h0 : d = 0
  · simp [h0]
  · by_cases hn : (mget ((mget st t).getD []) n).isSome <;>
      simp [h0, hn, mget_minsert_ne _ _ h]

theorem delete_collection_frame (st : Collections) (t t' n : String)
    (ok : Nat → Bool) (h : t' ≠ t) :
    mget (delete_collection st t n ok).state t' = mget st t' := by
  unfold delete_collection
  cases hm : mget st t with
  | none => simp [hm]
  | some tm =>
    by_cases hn : (mget tm n).isSome <;>
      by_cases hemp : mremove n tm = [] <;>
        simp [hm, hn, hemp, mget_minsert_ne _ _ h, mget_mremove_ne _ h]

theorem upsert_vectors_frame (st : Collections) (t t' n : String)
    (items : List UpsertItem) (ok : Nat → Bool) (h : t' ≠ t) :
    mget (upsert_vectors st t n items ok).state t' = mget st t' := by
  unfold upsert_vectors
  cases hm : mget st t with
  | none => simp [hm]
  | some tm =>
    cases hn : mget tm n with
    | none => simp [hm, hn]
    | some index => simp [hm, hn, mget_minsert_ne _ _ h]

theorem delete_vector_frame (st : Collections) (t t' n id : String)
    (ok : Nat → Bool) (h : t' ≠ t) :
    mget (delete_vector st t n id ok).state t' = mget st t' := by
  unfold delete_vector
  cases hm : mget st t with
  | none => simp [hm]
  | some tm =>
    cases hn : mget tm n with
    | none => simp [hm, hn]
    | some index => simp [hm, hn, mget_minsert_ne _ _ h]

theorem create_collection_local (st₁ st₂ : Collections) (t n : String)
    (d : Nat) (ok : Nat → Bool) (h : mget st₁ t = mget st₂ t) :
    (create_collection st₁ t n d ok).resp
      = (create_collection st₂ t n d ok).resp ∧
    mget (create_collection st₁ t n d ok).state t
      = mget (create_collection st₂ t n d ok).state t := by
  unfold create_collection
  by_cases h0 : d = 0
  · simp [h0, h]
  · by_cases hn : (mget ((mget st₂ t).getD []) n).isSome <;>
      simp [h0, h, hn, mget_minsert]

theorem delete_collection_local (st₁ st₂ : Collections) (t n : String)
    (ok : Nat → Bool) (h : mget st₁ t = mget st₂ t) :
    (delete_collection st₁ t n ok).resp
      = (delete_collection st₂ t n ok).resp ∧
    mget (delete_collection st₁ t n ok).state t
      = mget (delete_collection st₂ t n ok).state t := by
  unfold delete_collection
  rw [h]
  cases hm : mget st₂ t with
  | none => simp [hm, h]
  | some tm =>
    by_cases hn : (mget tm n).isSome <;>
      by_cases hemp : mremove n tm = [] <;>
        simp [hm, hn, hemp, h, mget_minsert, mget_mremove]

theorem upsert_vectors_local (st₁ st₂ : Collections) (t n : String)
    (items : List UpsertItem) (ok : Nat → Bool)
    (h : mget st₁ t = mget st₂ t) :
    (upsert_vectors st₁ t n items ok).resp
      = (upsert_vectors st₂ t n items ok).resp ∧
    mget (upsert_vectors st₁ t n items ok).state t
      = mget (upsert_vectors st₂ t n items ok).state t := by
  unfold upsert_vectors
  rw [h]
  cases hm : mget st₂ t with
  | none => simp [hm, h]
  | some tm =>
    cases hn : mget tm n with
    | none => simp [hm, hn, h]
    | some index => simp [hm, hn, mget_minsert]

theorem delete_vector_local (st₁ st₂ : Collections) (t n id : String)
    (ok : Nat → Bool) (h : mget st₁ t = mget st₂ t) :
    (delete_vector st₁ t n id ok).resp
      = (delete_vector st₂ t n id ok).resp ∧
    mget (delete_vector st₁ t n id ok).state t
      = mget (delete_vector st₂ t n id ok).state t := by
  unfold delete_vector
  rw [h]
  cases hm : mget st₂ t with
  | none => simp [hm, h]
  | some tm =>
    cases hn : mget tm n with
    | none => simp [hm, hn, h]
    | some index => simp [hm, hn, mget_minsert]

theorem query_vectors_local (st₁ st₂ : Collections) (t n : String)
    (search : List ℚ → Nat → Nat → List (Nat × ℚ)) (q : List ℚ) (k : Nat)
    (h : mget st₁ t = mget st₂ t) :
    query_vectors st₁ t n search q k = query_vectors st₂ t n search q k := by
  unfold query_vectors
  rw [h]

theorem list_collections_local (st₁ st₂ : Collections) (t : String)
    (h : mget st₁ t = mget st₂ t) :
    list_collections st₁ t = list_collections st₂ t := by
  unfold list_collections
  rw [h]

/-- Claim C10: every collection-scoped handler invoked for tenant `t`
leaves the registry entry of every other tenant `t'` unchanged, and both
its response and its effect on tenant `t`'s own entry depend only on
tenant `t`'s entry — never on the contents of any other tenant's
collections (`query_vectors` and `list_collections` take the registry in
read mode and change no state at all). -/
theorem c10_tenant_isolation (st st₁ st₂ : Collections)
    (t t' n id : String) (dimension k : Nat) (items : List UpsertItem)
    (q : List ℚ) (search : List ℚ → Nat → Nat → List (Nat × ℚ))
    (ok : Nat → Bool) :
    (t' ≠ t →
      mget (create_collection st t n dimension ok).state t' = mget st t' ∧
      mget (delete_collection st t n ok).state t' = mget st t' ∧
      mget (upsert_vectors st t n items ok).state t' = mget st t' ∧
      mget (delete_vector st t n id ok).state t' = mget st t') ∧
    (mget st₁ t = mget st₂ t →
      (create_collection st₁ t n dimension ok).resp
          = (create_collection st₂ t n dimension ok).resp ∧
      mget (create_collection st₁ t n dimension ok).state t
          = mget (create_collection st₂ t n dimension ok).state t ∧
      (delete_collection st₁ t n ok).resp
          = (delete_collection st₂ t n ok).resp ∧
      mget (delete_collection st₁ t n ok).state t
          = mget (delete_collection st₂ t n ok).state t ∧
      (upsert_vectors st₁ t n items ok).resp
          = (upsert_vectors st₂ t n items ok).resp ∧
      mget (upsert_vectors st₁ t n items ok).state t
          = mget (upsert_vectors st₂ t n items ok).state t ∧
      (delete_vector st₁ t n id ok).resp
          = (delete_vector st₂ t n id ok).resp ∧
      mget (delete_vector st₁ t n id ok).state t
          = mget (delete_vector st₂ t n id ok).state t ∧
      query_vectors st₁ t n search q k = query_vectors st₂ t n search q k ∧
      list_collections st₁ t = list_collections st₂ t) := by
  constructor
  · intro h
    exact ⟨create_collection_frame st t t' n dimension ok h,
      delete_collection_frame st t t' n ok h,
      upsert_vectors_frame st t t' n items ok h,
      delete_vector_frame st t t' n id ok h⟩
  · intro h
    obtain ⟨c1, c2⟩ := create_collection_local st₁ st₂ t n dimension ok h
    obtain ⟨d1, d2⟩ := delete_collection_local st₁ st₂ t n ok h
    obtain ⟨u1, u2⟩ := upsert_vectors_local st₁ st₂ t n items ok h
    obtain ⟨v1, v2⟩ := delete_vector_local st₁ st₂ t n id ok h
    exact ⟨c1, c2, d1, d2, u1, u2, v1, v2,
      query_vectors_local st₁ st₂ t n search q k h,
      list_collections_local st₁ st₂ t h⟩

/-- A concrete one-vector index used to witness claim C10. -/
def c10Index : InMemoryIndex :=
  { dim := 1
    vectors := [("a", ⟨[1], none⟩)]
    hnsw := [(0, [1])]
    id_to_data_id := [("a", 0)]
    data_id_to_id := [(0, "a")]
    next_data_id := 1 }

/-- A registry holding only tenant `"t"`. -/
def c10St1 : Collections := [("t", [("c", c10Index)])]

/-- A registry agreeing with `c10St1` on tenant `"t"` but also holding an
unrelated tenant `"u"`. -/
def c10St2 : Collections :=
  [("t", [("c", c10Index)]), ("u", [("d", InMemoryIndex.new 2)])]

/-- Witness for claim C10 at the concrete registries `c10St1`/`c10St2`
and tenants `"t" ≠ "u"`: upserting for tenant `"t"` leaves tenant `"u"`'s
entry unchanged, and all handler outcomes agree between the two
registries that differ only in the other tenant. -/
theorem c10_tenant_isolation_witness :
    (("u" : String) ≠ "t" ∧ mget c10St1 "t" = mget c10St2 "t") ∧
    (mget (create_collection c10St2 "t" "e" 3 (fun _ => true)).state "u"
        = mget c10St2 "u" ∧
      mget (delete_collection c10St2 "t" "c" (fun _ => true)).state "u"
        = mget c10St2 "u" ∧
      mget (upsert_vectors c10St2 "t" "c" [⟨"b", [1], none⟩]
          (fun _ => true)).state "u" = mget c10St2 "u" ∧
      mget (delete_vector c10St2 "t" "c" "a" (fun _ => true)).state "u"
        = mget c10St2 "u") ∧
    ((upsert_vectors c10St1 "t" "c" [⟨"b", [1], none⟩]
          (fun _ => true)).resp
        = (upsert_vectors c10St2 "t" "c" [⟨"b", [1], none⟩]
          (fun _ => true)).resp ∧
      query_vectors c10St1 "t" "c" (fun _ _ _ => []) [1] 1
        = query_vectors c10St2 "t" "c" (fun _ _ _ => []) [1] 1 ∧
      list_collections c10St1 "t" = list_collections c10St2 "t") := by
  have hne : ("u" : String) ≠ "t" := by decide
  have hag : mget c10St1 "t" = mget c10St2 "t" := by decide
  have frame := (c10_tenant_isolation c10St2 c10St1 c10St2 "t" "u" "c" "a"
    3 1 [⟨"b", [1], none⟩] [1] (fun _ _ _ => []) (fun _ => true)).1 hne
  have loc := (c10_tenant_isolation c10St2 c10St1 c10St2 "t" "u" "c" "a"
    3 1 [⟨"b", [1], none⟩] [1] (fun _ _ _ => []) (fun _ => true)).2 hag
  have frameCreate := (c10_tenant_isolation c10St2 c10St1 c10St2 "t" "u"
    "e" "a" 3 1 [⟨"b", [1], none⟩] [1] (fun _ _ _ => [])
    (fun _ => true)).1 hne
  exact ⟨⟨hne, hag⟩, ⟨frameCreate.1, frame.2.1, frame.2.2.1, frame.2.2.2⟩,
    loc.2.2.2.2.1, loc.2.2.2.2.2.2.2.2.1, loc.2.2.2.2.2.2.2.2.2⟩

end FastDB
